import Mathlib

/-!
Verification of the Vivastreet search-API request construction and validation
subsystem.  The definitions below are a shallow embedding of the TypeScript
sources:

* `src/utils/api-helpers.ts`   — URL building (`buildSearchAPIUrl`), query
  parsing (`parseQueryParams`) and typed conversion (`toSearchAPIParams`);
* `src/api/mappings/category-mappings.ts`, `location-mappings.ts` — the
  static label registries;
* `src/api/search-api.helper.ts` — the UI-label → API-parameter translator
  (`mapToAPIParams`);
* `src/api/search-validator.helper.ts` — parameter comparison
  (`compareParams`) and the interception lifecycle
  (`startInterception` / `validateInterceptedRequest` / `stopInterception`).

JavaScript numbers that can arise here are integers or `NaN` (from
`parseInt`), modelled by `JSNum`.  The platform pieces (`URLSearchParams`
serialization, `new URL(...).searchParams` parsing, `String(...)`,
`parseInt(..., 10)`) are modelled explicitly below, faithful to their
standard behaviour on the inputs this repository produces.
-/

namespace Vivast

/-- Decidable equality for `Except` results, used to state concrete
evaluations of the fallible operations. -/
instance instDecEqExcept {ε α : Type} [DecidableEq ε] [DecidableEq α] :
    DecidableEq (Except ε α) := fun a b =>
  match a, b with
  | Except.ok x, Except.ok y =>
    if h : x = y then isTrue (by rw [h]) else isFalse (by intro hc; cases hc; exact h rfl)
  | Except.error x, Except.error y =>
    if h : x = y then isTrue (by rw [h]) else isFalse (by intro hc; cases hc; exact h rfl)
  | Except.ok _, Except.error _ => isFalse (by intro hc; cases hc)
  | Except.error _, Except.ok _ => isFalse (by intro hc; cases hc)

/-- A JavaScript number as it occurs in this subsystem: an integer, or `NaN`
(the result of `parseInt` on input with no leading digits). -/
inductive JSNum where
  | num (n : Int)
  | nan
deriving DecidableEq, Repr

/-- Decimal digits of `n`, most significant first (fuel-based so that it
reduces in the kernel; `fuel ≥ n` suffices). -/
def natDecimalAux : Nat → Nat → List Char → List Char
  | 0, n, acc => Char.ofNat (48 + n % 10) :: acc
  | fuel + 1, n, acc =>
    let d := Char.ofNat (48 + n % 10)
    if n < 10 then d :: acc else natDecimalAux fuel (n / 10) (d :: acc)

/-- Decimal representation of a natural number. -/
def natDecimal (n : Nat) : List Char := natDecimalAux n n []

/-- Models JavaScript `String(value)` for a number: decimal for integers
(with a leading `-` for negatives), `"NaN"` for `NaN`. -/
def jsNumToString : JSNum → String
  | JSNum.num n => if n < 0 then String.mk ('-' :: natDecimal n.natAbs) else String.mk (natDecimal n.natAbs)
  | JSNum.nan => "NaN"

/-- Whitespace stripped by JavaScript `parseInt` before parsing. -/
def isJsSpace (c : Char) : Bool :=
  c = ' ' || c = '\t' || c = '\n' || c = '\r' || c.toNat = 11 || c.toNat = 12

/-- The decimal-digit test (code points of `0`–`9`). -/
def isDigitChar (c : Char) : Bool :=
  48 ≤ c.toNat && c.toNat ≤ 57

/-- Accumulate the value of the longest leading run of decimal digits. -/
def leadingDigitsAux : List Char → Nat → Nat
  | [], acc => acc
  | c :: cs, acc => if isDigitChar c then leadingDigitsAux cs (10 * acc + (c.toNat - 48)) else acc

/-- Value of the longest leading run of decimal digits; `none` when the list
does not start with a digit. -/
def leadingDigits : List Char → Option Nat
  | [] => none
  | c :: cs => if isDigitChar c then some (leadingDigitsAux cs (c.toNat - 48)) else none

/-- The sign-and-digits part of `parseInt` after whitespace stripping. -/
def parseIntCore : List Char → JSNum
  | [] => JSNum.nan
  | c :: cs =>
    if c = '-' then
      match leadingDigits cs with
      | some n => JSNum.num (-(n : Int))
      | none => JSNum.nan
    else if c = '+' then
      match leadingDigits cs with
      | some n => JSNum.num (n : Int)
      | none => JSNum.nan
    else
      match leadingDigits (c :: cs) with
      | some n => JSNum.num (n : Int)
      | none => JSNum.nan

/-- Models JavaScript `parseInt(s, 10)`: strip leading whitespace, an
optional sign, then the longest run of decimal digits; `NaN` when no digit
follows. -/
def parseIntTen (s : String) : JSNum :=
  parseIntCore (s.data.dropWhile isJsSpace)

/-- The `SearchAPIParams` interface of `src/utils/api-types.ts`: the query
parameters of the `regions_tree.php` endpoint.  `none` models an absent
field. -/
structure SearchAPIParams where
  geo_id : Option JSNum := none
  cat_id : Option JSNum := none
  meta_code : Option String := none
  summary : Option JSNum := none
  country : Option String := none
  country_id : Option String := none
deriving DecidableEq, Repr

/-- Embeds `DEFAULT_API_PARAMS` of `src/utils/api-helpers.ts`. -/
def DEFAULT_API_PARAMS : SearchAPIParams :=
  { summary := some (JSNum.num 1), country := some "GB", country_id := some "GB" }

/-- Embeds `SEARCH_API_URL` of `src/utils/api-helpers.ts`. -/
def SEARCH_API_URL : String := "https://search.vivastreet.co.uk/ajax/regions_tree.php"

/-- JavaScript object spread `{ ...base, ...p }` on `SearchAPIParams`
values: a field present in `p` overrides the one of `base`. -/
def spreadMerge (base p : SearchAPIParams) : SearchAPIParams :=
  { geo_id := match p.geo_id with | some v => some v | none => base.geo_id
    cat_id := match p.cat_id with | some v => some v | none => base.cat_id
    meta_code := match p.meta_code with | some v => some v | none => base.meta_code
    summary := match p.summary with | some v => some v | none => base.summary
    country := match p.country with | some v => some v | none => base.country
    country_id := match p.country_id with | some v => some v | none => base.country_id }

/-- One `Object.entries` entry for an optional field (absent fields have no
entry; present values are stringified with `String(value)` by the caller). -/
def entryOpt (k : String) (v : Option String) : List (String × String) :=
  match v with
  | some s => [(k, s)]
  | none => []

/-- The `Object.entries` of the merged object built inside
`buildSearchAPIUrl`: the default keys (`summary`, `country`, `country_id`)
come first because the spread lists `DEFAULT_API_PARAMS` first; the keys
contributed only by the caller follow (their relative order is the caller's
insertion order, fixed here as the interface declaration order — every
theorem below is independent of that choice).  The source skips
`undefined`/`null` values, i.e. exactly the absent fields. -/
def mergedEntries (params : SearchAPIParams) : List (String × String) :=
  entryOpt "summary" ((spreadMerge DEFAULT_API_PARAMS params).summary.map jsNumToString) ++
  entryOpt "country" (spreadMerge DEFAULT_API_PARAMS params).country ++
  entryOpt "country_id" (spreadMerge DEFAULT_API_PARAMS params).country_id ++
  entryOpt "geo_id" ((spreadMerge DEFAULT_API_PARAMS params).geo_id.map jsNumToString) ++
  entryOpt "cat_id" ((spreadMerge DEFAULT_API_PARAMS params).cat_id.map jsNumToString) ++
  entryOpt "meta_code" (spreadMerge DEFAULT_API_PARAMS params).meta_code

/-- Characters that `URLSearchParams` serialization leaves unescaped
(`application/x-www-form-urlencoded`: ASCII alphanumerics and `*`, `-`,
`.`, `_`). -/
def keepChar (c : Char) : Bool :=
  (48 ≤ c.toNat && c.toNat ≤ 57) || (65 ≤ c.toNat && c.toNat ≤ 90) ||
    (97 ≤ c.toNat && c.toNat ≤ 122) ||
    c.toNat = 42 || c.toNat = 45 || c.toNat = 46 || c.toNat = 95

/-- Uppercase hexadecimal digit. -/
def hexDigitChar (n : Nat) : Char :=
  if n < 10 then Char.ofNat (48 + n) else Char.ofNat (55 + n)

/-- UTF-8 encoding of a character, as a list of byte values. -/
def utf8Bytes (c : Char) : List Nat :=
  let n := c.toNat
  if n < 128 then [n]
  else if n < 2048 then [192 + n / 64, 128 + n % 64]
  else if n < 65536 then [224 + n / 4096, 128 + n / 64 % 64, 128 + n % 64]
  else [240 + n / 262144, 128 + n / 4096 % 64, 128 + n / 64 % 64, 128 + n % 64]

/-- Embeds `application/x-www-form-urlencoded` encoding of one character, as used
by `URLSearchParams.toString()`. -/
def formEncodeChar (c : Char) : List Char :=
  if keepChar c then [c]
  else if c = ' ' then ['+']
  else (utf8Bytes c).flatMap (fun b => ['%', hexDigitChar (b / 16), hexDigitChar (b % 16)])

/-- Form-encode a whole string. -/
def formEncode (s : String) : List Char := s.data.flatMap formEncodeChar

/-- Serialize one `key=value` query pair. -/
def encPair (kv : String × String) : List Char := formEncode kv.1 ++ '=' :: formEncode kv.2

/-- Join query pairs with `&`. -/
def joinAmp : List (List Char) → List Char
  | [] => []
  | [x] => x
  | x :: y :: rest => x ++ '&' :: joinAmp (y :: rest)

/-- Embeds `URLSearchParams.toString()` for an ordered list of appended pairs. -/
def serializeQuery (l : List (String × String)) : List Char := joinAmp (l.map encPair)

/-- Embeds `buildSearchAPIUrl` of `src/utils/api-helpers.ts`: merge the defaults
with the caller's parameters (caller wins per field), append every defined
entry to a `URLSearchParams`, and attach the query to the endpoint. -/
def buildSearchAPIUrl (params : SearchAPIParams) : String :=
  SEARCH_API_URL ++ "?" ++ String.mk (serializeQuery (mergedEntries params))

/-- Everything after the first `?` of a URL (the candidate query + fragment
part used by `new URL(url).searchParams`). -/
def afterFirstQmark : List Char → List Char
  | [] => []
  | c :: cs => if c = '?' then cs else afterFirstQmark cs

/-- Cut the fragment off the query part. -/
def beforeHash (cs : List Char) : List Char := cs.takeWhile (fun c => c != '#')

/-- Split a character list on a separator (keeping empty segments). -/
def splitOnChar (sep : Char) : List Char → List (List Char)
  | [] => [[]]
  | c :: cs =>
    match splitOnChar sep cs with
    | [] => [[c]]
    | g :: gs => if c = sep then [] :: g :: gs else (c :: g) :: gs

/-- Split a query segment at its first `=` (no `=`: the value is empty). -/
def splitFirstEq : List Char → List Char × List Char
  | [] => ([], [])
  | c :: cs =>
    if c = '=' then ([], cs)
    else
      let r := splitFirstEq cs
      (c :: r.1, r.2)

/-- Value of a hexadecimal digit character. -/
def hexVal (c : Char) : Option Nat :=
  if '0' ≤ c ∧ c ≤ '9' then some (c.toNat - 48)
  else if 'A' ≤ c ∧ c ≤ 'F' then some (c.toNat - 55)
  else if 'a' ≤ c ∧ c ≤ 'f' then some (c.toNat - 87)
  else none

/-- Percent-decoding of a query segment to its byte sequence (fuel-based so
that it reduces in the kernel; every step consumes at least one character,
so `fuel ≥ length` suffices): `+` is a space, `%XX` a byte, an invalid
escape is kept literally, and any other character contributes its UTF-8
bytes. -/
def percentDecodeBytesAux : Nat → List Char → List Nat
  | 0, _ => []
  | _ + 1, [] => []
  | fuel + 1, c :: cs =>
    if c = '+' then 32 :: percentDecodeBytesAux fuel cs
    else if c = '%' then
      match cs with
      | h :: l :: cs2 =>
        match hexVal h, hexVal l with
        | some hv, some lv => (16 * hv + lv) :: percentDecodeBytesAux fuel cs2
        | _, _ => utf8Bytes '%' ++ percentDecodeBytesAux fuel (h :: l :: cs2)
      | rest => utf8Bytes '%' ++ percentDecodeBytesAux fuel rest
    else utf8Bytes c ++ percentDecodeBytesAux fuel cs

/-- Percent-decoding of a query segment to its byte sequence. -/
def percentDecodeBytes (cs : List Char) : List Nat := percentDecodeBytesAux cs.length cs

/-- The Unicode replacement character emitted for malformed UTF-8. -/
def replacementChar : Char := Char.ofNat 65533

/-- Fuel-based UTF-8 decoder (fuel bounds the number of decoding steps;
`fuel ≥ length` suffices since every step consumes at least one byte). -/
def utf8DecodeAux : Nat → List Nat → List Char
  | 0, _ => []
  | _ + 1, [] => []
  | fuel + 1, b :: bs =>
    if b < 128 then Char.ofNat b :: utf8DecodeAux fuel bs
    else if 192 ≤ b ∧ b < 224 then
      match bs with
      | b2 :: bs2 =>
        if 128 ≤ b2 ∧ b2 < 192 then
          Char.ofNat ((b - 192) * 64 + (b2 - 128)) :: utf8DecodeAux fuel bs2
        else replacementChar :: utf8DecodeAux fuel bs
      | [] => [replacementChar]
    else if 224 ≤ b ∧ b < 240 then
      match bs with
      | b2 :: b3 :: bs2 =>
        if 128 ≤ b2 && b2 < 192 && 128 ≤ b3 && b3 < 192 then
          Char.ofNat ((b - 224) * 4096 + (b2 - 128) * 64 + (b3 - 128)) :: utf8DecodeAux fuel bs2
        else replacementChar :: utf8DecodeAux fuel bs
      | _ => [replacementChar]
    else if 240 ≤ b ∧ b < 248 then
      match bs with
      | b2 :: b3 :: b4 :: bs2 =>
        if 128 ≤ b2 && b2 < 192 && 128 ≤ b3 && b3 < 192 && 128 ≤ b4 && b4 < 192 then
          Char.ofNat ((b - 240) * 262144 + (b2 - 128) * 4096 + (b3 - 128) * 64 + (b4 - 128)) ::
            utf8DecodeAux fuel bs2
        else replacementChar :: utf8DecodeAux fuel bs
      | _ => [replacementChar]
    else replacementChar :: utf8DecodeAux fuel bs

/-- Percent-decode a query segment to a string. -/
def percentDecode (cs : List Char) : String :=
  String.mk (utf8DecodeAux (percentDecodeBytes cs).length (percentDecodeBytes cs))

/-- Embeds `parseQueryParams` of `src/utils/api-helpers.ts`: `new URL(url)`
followed by iterating `searchParams`.  The result is the ordered pair list
the iteration yields; the record the source builds from it is read through
`recGet` (later assignments to the same key win). -/
def parseQueryParams (url : String) : List (String × String) :=
  (splitOnChar '&' (beforeHash (afterFirstQmark url.data))).filterMap (fun seg =>
    if seg = [] then none
    else some (percentDecode (splitFirstEq seg).1, percentDecode (splitFirstEq seg).2))

/-- Reading a key from the `Record<string, string>` built by assigning the
parsed pairs in order: the last assignment to a key wins. -/
def recGet : List (String × String) → String → Option String
  | [], _ => none
  | kv :: rest, k =>
    match recGet rest k with
    | some v => some v
    | none => if kv.1 = k then some kv.2 else none

/-- An integer field of `toSearchAPIParams`: the source guards with the
truthiness of the raw string (absent or empty string fails the guard) and
then applies `parseInt(s, 10)`. -/
def intField (v : Option String) : Option JSNum :=
  match v with
  | some s => if s = "" then none else some (parseIntTen s)
  | none => none

/-- A string field of `toSearchAPIParams`: kept as-is when truthy. -/
def strField (v : Option String) : Option String :=
  match v with
  | some s => if s = "" then none else some s
  | none => none

/-- Embeds `toSearchAPIParams` of `src/utils/api-helpers.ts`. -/
def toSearchAPIParams (params : List (String × String)) : SearchAPIParams :=
  { geo_id := intField (recGet params "geo_id")
    cat_id := intField (recGet params "cat_id")
    meta_code := strField (recGet params "meta_code")
    summary := intField (recGet params "summary")
    country := strField (recGet params "country")
    country_id := strField (recGet params "country_id") }

/-- Embeds `CategoryMapping` of `src/utils/api-types.ts`. -/
structure CategoryMapping where
  label : String
  cat_id : Int
  meta_code : String
deriving DecidableEq, Repr

/-- Embeds `LocationMapping` of `src/utils/api-types.ts`. -/
structure LocationMapping where
  label : String
  geo_id : Int
deriving DecidableEq, Repr

/-- Embeds `CATEGORY_MAPPINGS` of `src/api/mappings/category-mappings.ts`. -/
def CATEGORY_MAPPINGS : List (String × CategoryMapping) :=
  [("Home Appliances", { label := "Home Appliances", cat_id := 93, meta_code := "appliances_furniture" }),
   ("Escorts and Massages", { label := "Escorts and Massages", cat_id := 88, meta_code := "adult_services" })]

/-- Embeds `getCategoryMapping` of `src/api/mappings/category-mappings.ts`. -/
def getCategoryMapping (categoryLabel : String) : Option CategoryMapping :=
  (CATEGORY_MAPPINGS.find? (fun kv => kv.1 == categoryLabel)).map Prod.snd

/-- Embeds `LOCATION_MAPPINGS` of `src/api/mappings/location-mappings.ts`. -/
def LOCATION_MAPPINGS : List (String × LocationMapping) :=
  [("London", { label := "London", geo_id := 7 }),
   ("", { label := "", geo_id := 0 })]

/-- Embeds `getLocationMapping` of `src/api/mappings/location-mappings.ts`. -/
def getLocationMapping (locationLabel : String) : Option LocationMapping :=
  (LOCATION_MAPPINGS.find? (fun kv => kv.1 == locationLabel)).map Prod.snd

/-- Embeds `SearchParameters` of `src/utils/api-types.ts` (a UI-level search
request). -/
structure SearchParameters where
  category : Option String := none
  location : Option String := none
  keyword : Option String := none
deriving DecidableEq, Repr

/-- Which registry a failed lookup came from. -/
inductive MappingKind where
  | category
  | location
deriving DecidableEq, Repr

/-- The message of the category `Error` thrown by `mapToAPIParams`. -/
def categoryNotFoundMsg (label : String) : String :=
  "Category mapping not found for: \"" ++ label ++ "\".\n" ++
  "Add mapping to api/mappings/category-mappings.ts\n\n" ++
  "To find the mapping:\n" ++
  "1. Open browser DevTools → Network tab\n" ++
  "2. Select \"" ++ label ++ "\" in UI\n" ++
  "3. Observe request to regions_tree.php\n" ++
  "4. Record cat_id and meta_code parameters"

/-- The message of the location `Error` thrown by `mapToAPIParams`. -/
def locationNotFoundMsg (label : String) : String :=
  "Location mapping not found for: \"" ++ label ++ "\".\n" ++
  "Add mapping to api/mappings/location-mappings.ts\n\n" ++
  "To find the mapping:\n" ++
  "1. Open browser DevTools → Network tab\n" ++
  "2. Select \"" ++ label ++ "\" in UI\n" ++
  "3. Observe request to regions_tree.php\n" ++
  "4. Record geo_id parameter"

/-- Embeds `RequestValidation` of `src/utils/api-types.ts`. -/
structure RequestValidation where
  matched : Bool
  actualParams : SearchAPIParams
  expectedParams : SearchAPIParams
  differences : Option (List String)
deriving DecidableEq, Repr

/-- The errors thrown by the subsystem (each a plain `Error` in the source,
distinguished here by the data its message is built from; the
no-intercepted-request message is the constant string of the source). -/
inductive ValidationError where
  | noInterceptedRequest
  | mappingNotFound (kind : MappingKind) (label : String) (msg : String)
  | parameterMismatch (validation : RequestValidation)
deriving DecidableEq, Repr

/-- The category step of `mapToAPIParams`: the branch is guarded by
`if (params.category)` (truthiness: absent or empty string is skipped);
on a registry miss the descriptive error is thrown. -/
def mapCategory (params : SearchParameters) : Except ValidationError SearchAPIParams :=
  match params.category with
  | some c =>
    if c = "" then Except.ok {}
    else
      match getCategoryMapping c with
      | some m => Except.ok { cat_id := some (JSNum.num m.cat_id), meta_code := some m.meta_code }
      | none => Except.error (ValidationError.mappingNotFound MappingKind.category c (categoryNotFoundMsg c))
  | none => Except.ok {}

/-- Embeds `mapToAPIParams` of `src/api/search-api.helper.ts`: the category branch
(see `mapCategory`), then the location branch guarded by
`if (params.location !== undefined)` (presence, empty string included);
`keyword` is not translated. -/
def mapToAPIParams (params : SearchParameters) : Except ValidationError SearchAPIParams :=
  match mapCategory params with
  | Except.error e => Except.error e
  | Except.ok apiParams =>
    match params.location with
    | some l =>
      match getLocationMapping l with
      | some m => Except.ok { apiParams with geo_id := some (JSNum.num m.geo_id) }
      | none => Except.error (ValidationError.mappingNotFound MappingKind.location l (locationNotFoundMsg l))
    | none => Except.ok apiParams

/-- A JavaScript value read off a `SearchAPIParams` field: a number, a
string, or `undefined`. -/
inductive JSVal where
  | num (v : JSNum)
  | str (s : String)
  | undef
deriving DecidableEq, Repr

/-- The value of an optional number field, as JavaScript indexing sees it. -/
def numVal : Option JSNum → JSVal
  | some v => JSVal.num v
  | none => JSVal.undef

/-- The value of an optional string field, as JavaScript indexing sees it. -/
def strVal : Option String → JSVal
  | some s => JSVal.str s
  | none => JSVal.undef

/-- Indexing `actual[key]` / `expected[key]` for the compared keys. -/
def getParam (p : SearchAPIParams) (key : String) : JSVal :=
  if key = "geo_id" then numVal p.geo_id
  else if key = "cat_id" then numVal p.cat_id
  else if key = "meta_code" then strVal p.meta_code
  else JSVal.undef

/-- JavaScript strict equality `===` on these values (`NaN` is not equal to
anything, `NaN` included). -/
def jsStrictEq : JSVal → JSVal → Bool
  | JSVal.num JSNum.nan, _ => false
  | _, JSVal.num JSNum.nan => false
  | JSVal.num (JSNum.num a), JSVal.num (JSNum.num b) => a == b
  | JSVal.str a, JSVal.str b => a == b
  | JSVal.undef, JSVal.undef => true
  | _, _ => false

/-- Template-literal rendering of a value inside a difference message. -/
def jsValToString : JSVal → String
  | JSVal.num v => jsNumToString v
  | JSVal.str s => s
  | JSVal.undef => "undefined"

/-- Embeds `paramsToCompare` of `compareParams`. -/
def paramsToCompare : List String := ["cat_id", "geo_id", "meta_code"]

/-- One iteration of the comparison loop of `compareParams`: the state is
`(matched, differences)`. -/
def compareStep (actual expected : SearchAPIParams) (acc : Bool × List String) (key : String) :
    Bool × List String :=
  let actualValue := getParam actual key
  let expectedValue := getParam expected key
  if expectedValue ≠ JSVal.undef then
    if jsStrictEq actualValue expectedValue then acc
    else (false, acc.2 ++ [key ++ ": expected " ++ jsValToString expectedValue ++ ", got " ++ jsValToString actualValue])
  else acc

/-- Embeds `compareParams` of `src/api/search-validator.helper.ts` (the fold state
is the pair of the `matched` flag and the `differences` array; the source
returns `undefined` for an empty array, modelled as `none`). -/
def compareParams (actual expected : SearchAPIParams) : RequestValidation :=
  { matched := (paramsToCompare.foldl (compareStep actual expected) (true, [])).1
    actualParams := actual
    expectedParams := expected
    differences :=
      if (paramsToCompare.foldl (compareStep actual expected) (true, [])).2 = [] then none
      else some (paramsToCompare.foldl (compareStep actual expected) (true, [])).2 }

/-- The mutable state of a `SearchValidatorHelper` instance: the optional
captured request (its URL) and whether the route hook is installed. -/
structure ValidatorState where
  interceptedRequest : Option String := none
  routeInstalled : Bool := false
deriving DecidableEq, Repr

/-- The state of a freshly constructed helper. -/
def initialValidatorState : ValidatorState := {}

/-- Embeds `startInterception`: clear the captured request and install the route
hook. -/
def startInterception (_st : ValidatorState) : ValidatorState :=
  { interceptedRequest := none, routeInstalled := true }

/-- The route callback observing a matching outbound request: store it (and
continue the request unmodified). -/
def onRouteRequest (st : ValidatorState) (url : String) : ValidatorState :=
  if st.routeInstalled then { st with interceptedRequest := some url } else st

/-- Embeds `stopInterception`: remove the hook and discard the captured request. -/
def stopInterception (_st : ValidatorState) : ValidatorState :=
  { interceptedRequest := none, routeInstalled := false }

/-- Embeds `validateInterceptedRequest` of `src/api/search-validator.helper.ts`:
fails when nothing was captured; otherwise decodes the captured URL,
translates the expected UI request, compares, throws on mismatch (leaving
the state untouched, as the source only reaches `stopInterception` after
the comparison passes), and on success stops the session. -/
def validateInterceptedRequest (st : ValidatorState) (expectedParams : SearchParameters) :
    Except ValidationError Unit × ValidatorState :=
  match st.interceptedRequest with
  | none => (Except.error ValidationError.noInterceptedRequest, st)
  | some url =>
    match mapToAPIParams expectedParams with
    | Except.error e => (Except.error e, st)
    | Except.ok expectedAPIParams =>
      if (compareParams (toSearchAPIParams (parseQueryParams url)) expectedAPIParams).matched then
        (Except.ok (), stopInterception st)
      else
        (Except.error (ValidationError.parameterMismatch
          (compareParams (toSearchAPIParams (parseQueryParams url)) expectedAPIParams)), st)

/-! ### Helper lemmas: decimal printing and `parseInt` -/

theorem char_toNat_ofNat_small {m : Nat} (h : m < 55296) : (Char.ofNat m).toNat = m := by
  unfold Char.ofNat
  rw [dif_pos (Or.inl h)]
  simp [Char.ofNatAux, Char.toNat, UInt32.toNat, UInt32.ofNat', BitVec.toNat_ofNatLt]

theorem natDecimalAux_ne_nil (fuel n : Nat) (acc : List Char) : natDecimalAux fuel n acc ≠ [] := by
  induction fuel generalizing n acc with
  | zero => simp [natDecimalAux]
  | succ fuel ih =>
    unfold natDecimalAux
    by_cases h : n < 10 <;> simp [h, ih]

theorem natDecimalAux_append (fuel n : Nat) (acc : List Char) :
    natDecimalAux fuel n acc = natDecimalAux fuel n [] ++ acc := by
  induction fuel generalizing n acc with
  | zero => simp [natDecimalAux]
  | succ fuel ih =>
    unfold natDecimalAux
    by_cases h : n < 10
    · simp [h]
    · simp only [if_neg h]
      rw [ih, ih (n / 10) [Char.ofNat (48 + n % 10)], List.append_assoc]
      simp

theorem natDecimalAux_digits (fuel n : Nat) (acc : List Char)
    (hacc : ∀ c ∈ acc, isDigitChar c = true) :
    ∀ c ∈ natDecimalAux fuel n acc, isDigitChar c = true := by
  induction fuel generalizing n acc with
  | zero =>
    intro c hc
    simp [natDecimalAux] at hc
    rcases hc with hc | hc
    · subst hc
      simp [isDigitChar, char_toNat_ofNat_small (by omega : 48 + n % 10 < 55296)]
      omega
    · exact hacc c hc
  | succ fuel ih =>
    intro c hc
    have hd : isDigitChar (Char.ofNat (48 + n % 10)) = true := by
      simp [isDigitChar, char_toNat_ofNat_small (by omega : 48 + n % 10 < 55296)]
      omega
    unfold natDecimalAux at hc
    by_cases h : n < 10
    · simp [h] at hc
      rcases hc with hc | hc
      · subst hc; exact hd
      · exact hacc c hc
    · simp only [if_neg h] at hc
      refine ih (n / 10) (Char.ofNat (48 + n % 10) :: acc) ?_ c hc
      intro x hx
      simp at hx
      rcases hx with hx | hx
      · subst hx; exact hd
      · exact hacc x hx

theorem natDecimalAux_fuel (n : Nat) : ∀ fuel fuel' : Nat, n ≤ fuel → n ≤ fuel' →
    natDecimalAux fuel n [] = natDecimalAux fuel' n [] := by
  induction n using Nat.strong_induction_on with
  | _ n ih =>
    intro fuel fuel' hf hf'
    match fuel, fuel' with
    | 0, 0 => rfl
    | 0, f' + 1 =>
      have : n = 0 := by omega
      subst this
      simp [natDecimalAux]
    | f + 1, 0 =>
      have : n = 0 := by omega
      subst this
      simp [natDecimalAux]
    | f + 1, f' + 1 =>
      unfold natDecimalAux
      by_cases h : n < 10
      · simp [h]
      · simp only [if_neg h]
        rw [natDecimalAux_append f, natDecimalAux_append f']
        rw [ih (n / 10) (by omega) f f' (by omega) (by omega)]

theorem natDecimalAux_succ (fuel n : Nat) (acc : List Char) :
    natDecimalAux (fuel + 1) n acc =
      if n < 10 then Char.ofNat (48 + n % 10) :: acc
      else natDecimalAux fuel (n / 10) (Char.ofNat (48 + n % 10) :: acc) := rfl

theorem natDecimal_small {n : Nat} (h : n < 10) : natDecimal n = [Char.ofNat (48 + n)] := by
  unfold natDecimal
  rcases n with _ | m
  · simp [natDecimalAux]
  · rw [natDecimalAux_succ, if_pos h, Nat.mod_eq_of_lt h]

theorem natDecimal_step {n : Nat} (h : 10 ≤ n) :
    natDecimal n = natDecimal (n / 10) ++ [Char.ofNat (48 + n % 10)] := by
  rcases n with _ | m
  · omega
  · show natDecimalAux (m + 1) (m + 1) [] = natDecimal ((m + 1) / 10) ++ _
    rw [natDecimalAux_succ, if_neg (by omega), natDecimalAux_append]
    unfold natDecimal
    rw [natDecimalAux_fuel ((m + 1) / 10) m ((m + 1) / 10) (by omega) (le_refl _)]

/-- The accumulator step of reading a decimal numeral left to right. -/
def digitStep (a : Nat) (c : Char) : Nat := 10 * a + (c.toNat - 48)

theorem natDecimal_foldl (n : Nat) : (natDecimal n).foldl digitStep 0 = n := by
  induction n using Nat.strong_induction_on with
  | _ n ih =>
    by_cases h : n < 10
    · rw [natDecimal_small h]
      simp [digitStep, char_toNat_ofNat_small (by omega : 48 + n < 55296)]
    · rw [natDecimal_step (by omega)]
      rw [List.foldl_append]
      rw [ih (n / 10) (by omega)]
      simp [digitStep, char_toNat_ofNat_small (by omega : 48 + n % 10 < 55296)]
      omega

theorem leadingDigitsAux_foldl (cs : List Char) (a : Nat)
    (h : ∀ c ∈ cs, isDigitChar c = true) :
    leadingDigitsAux cs a = cs.foldl digitStep a := by
  induction cs generalizing a with
  | nil => simp [leadingDigitsAux]
  | cons c cs ih =>
    have hc : isDigitChar c = true := h c (by simp)
    simp [leadingDigitsAux, hc, digitStep]
    exact ih _ (fun x hx => h x (by simp [hx]))

theorem leadingDigits_natDecimal (n : Nat) : leadingDigits (natDecimal n) = some n := by
  rcases hd : natDecimal n with _ | ⟨c, cs⟩
  · exact absurd hd (natDecimalAux_ne_nil n n [])
  · have hdig : ∀ x ∈ natDecimal n, isDigitChar x = true :=
      natDecimalAux_digits n n [] (by simp)
    rw [hd] at hdig
    have hc : isDigitChar c = true := hdig c (by simp)
    simp only [leadingDigits, hc, if_true]
    rw [leadingDigitsAux_foldl cs (c.toNat - 48) (fun x hx => hdig x (by simp [hx]))]
    have hv : (natDecimal n).foldl digitStep 0 = n := natDecimal_foldl n
    rw [hd] at hv
    simp only [List.foldl_cons] at hv
    have hz : digitStep 0 c = c.toNat - 48 := by simp [digitStep]
    rw [hz] at hv
    rw [hv]

theorem isDigitChar_bounds {c : Char} (h : isDigitChar c = true) :
    48 ≤ c.toNat ∧ c.toNat ≤ 57 := by
  simp [isDigitChar] at h
  exact h

theorem isJsSpace_of_digit {c : Char} (h : isDigitChar c = true) : isJsSpace c = false := by
  obtain ⟨h1, h2⟩ := isDigitChar_bounds h
  unfold isJsSpace
  have hs : c ≠ ' ' := by intro hc; subst hc; exact absurd h1 (by decide)
  have ht : c ≠ '\t' := by intro hc; subst hc; exact absurd h1 (by decide)
  have hn : c ≠ '\n' := by intro hc; subst hc; exact absurd h1 (by decide)
  have hr : c ≠ '\r' := by intro hc; subst hc; exact absurd h1 (by decide)
  have h11 : c.toNat ≠ 11 := by omega
  have h12 : c.toNat ≠ 12 := by omega
  simp [hs, ht, hn, hr, h11, h12]

theorem digit_ne_minus {c : Char} (h : isDigitChar c = true) : c ≠ '-' := by
  intro hc
  subst hc
  simp [isDigitChar] at h

theorem digit_ne_plus {c : Char} (h : isDigitChar c = true) : c ≠ '+' := by
  intro hc
  subst hc
  simp [isDigitChar] at h

theorem dropWhile_cons_of_neg {p : Char → Bool} {c : Char} (cs : List Char)
    (h : p c = false) : (c :: cs).dropWhile p = c :: cs := by
  rw [List.dropWhile_cons, h]
  simp

theorem parseIntCore_digit {c : Char} (cs : List Char) (hc : isDigitChar c = true) :
    parseIntCore (c :: cs) =
      match leadingDigits (c :: cs) with
      | some n => JSNum.num (n : Int)
      | none => JSNum.nan := by
  simp only [parseIntCore, if_neg (digit_ne_minus hc), if_neg (digit_ne_plus hc)]

theorem parseIntTen_natDecimal (n : Nat) : parseIntTen (String.mk (natDecimal n)) = JSNum.num n := by
  have hdata : (String.mk (natDecimal n)).data = natDecimal n := rfl
  unfold parseIntTen
  rw [hdata]
  rcases hd : natDecimal n with _ | ⟨c, cs⟩
  · exact absurd hd (natDecimalAux_ne_nil n n [])
  · have hdig : ∀ x ∈ natDecimal n, isDigitChar x = true :=
      natDecimalAux_digits n n [] (by simp)
    rw [hd] at hdig
    have hc : isDigitChar c = true := hdig c (by simp)
    have hld : leadingDigits (natDecimal n) = some n := leadingDigits_natDecimal n
    rw [hd] at hld
    rw [dropWhile_cons_of_neg cs (isJsSpace_of_digit hc)]
    rw [parseIntCore_digit cs hc, hld]

theorem parseIntTen_jsNum (i : Int) : parseIntTen (jsNumToString (JSNum.num i)) = JSNum.num i := by
  simp only [jsNumToString]
  by_cases h : i < 0
  · rw [if_pos h]
    unfold parseIntTen
    have hdata : (String.mk ('-' :: natDecimal i.natAbs)).data = '-' :: natDecimal i.natAbs := rfl
    rw [hdata]
    rw [dropWhile_cons_of_neg _ (by decide : isJsSpace '-' = false)]
    have hcore : parseIntCore ('-' :: natDecimal i.natAbs) = JSNum.num (-(i.natAbs : Int)) := by
      simp [parseIntCore, leadingDigits_natDecimal i.natAbs]
    rw [hcore]
    have habs : (i.natAbs : Int) = -i := Int.ofNat_natAbs_of_nonpos (by omega)
    rw [habs]
    congr 1
    omega
  · rw [if_neg h]
    rw [parseIntTen_natDecimal i.natAbs]
    have habs : (i.natAbs : Int) = i := Int.natAbs_of_nonneg (by omega)
    rw [habs]

theorem natDecimal_ne_nil (n : Nat) : natDecimal n ≠ [] := natDecimalAux_ne_nil n n []

theorem jsNumToString_ne_empty (v : JSNum) : jsNumToString v ≠ "" := by
  rcases v with i | _
  · simp only [jsNumToString]
    by_cases h : i < 0
    · rw [if_pos h]
      intro hc
      have hl : ('-' :: natDecimal i.natAbs) = "".data := congrArg String.data hc
      simp at hl
    · rw [if_neg h]
      intro hc
      have hl : natDecimal i.natAbs = "".data := congrArg String.data hc
      exact natDecimal_ne_nil _ hl
  · decide

/-! ### Helper lemmas: form-encoding and URL parsing -/

theorem keepChar_bounds {c : Char} (h : keepChar c = true) : c.toNat < 128 := by
  simp [keepChar] at h
  omega

theorem keepChar_ne_of_not {c : Char} (h : keepChar c = true) (x : Char)
    (hx : keepChar x = false) : c ≠ x := by
  intro he
  subst he
  rw [h] at hx
  cases hx

theorem formEncodeChar_keep {c : Char} (h : keepChar c = true) : formEncodeChar c = [c] := by
  simp [formEncodeChar, h]

theorem flatMap_formEncodeChar_keep (l : List Char) (h : ∀ c ∈ l, keepChar c = true) :
    l.flatMap formEncodeChar = l := by
  induction l with
  | nil => simp
  | cons c cs ih =>
    rw [List.flatMap_cons, formEncodeChar_keep (h c (by simp)),
      ih (fun x hx => h x (by simp [hx]))]
    rfl

theorem percentDecodeBytesAux_keep (fuel : Nat) (cs : List Char) (hf : cs.length ≤ fuel)
    (h : ∀ c ∈ cs, keepChar c = true) : percentDecodeBytesAux fuel cs = cs.map Char.toNat := by
  induction fuel generalizing cs with
  | zero =>
    have hnil : cs = [] := by
      cases cs
      · rfl
      · simp at hf
    subst hnil
    simp [percentDecodeBytesAux]
  | succ fuel ih =>
    cases cs with
    | nil => simp [percentDecodeBytesAux]
    | cons c cs =>
      have hc := h c (by simp)
      have hplus : c ≠ '+' := keepChar_ne_of_not hc '+' (by decide)
      have hpct : c ≠ '%' := keepChar_ne_of_not hc '%' (by decide)
      have hlt : c.toNat < 128 := keepChar_bounds hc
      have hbytes : utf8Bytes c = [c.toNat] := by simp [utf8Bytes, hlt]
      simp only [percentDecodeBytesAux, if_neg hplus, if_neg hpct, hbytes]
      rw [ih cs (by simp at hf; omega) (fun x hx => h x (by simp [hx]))]
      rfl

theorem utf8DecodeAux_ascii (fuel : Nat) (bs : List Nat) (hf : bs.length ≤ fuel)
    (h : ∀ b ∈ bs, b < 128) : utf8DecodeAux fuel bs = bs.map Char.ofNat := by
  induction fuel generalizing bs with
  | zero =>
    have hnil : bs = [] := by
      cases bs
      · rfl
      · simp at hf
    subst hnil
    simp [utf8DecodeAux]
  | succ fuel ih =>
    cases bs with
    | nil => simp [utf8DecodeAux]
    | cons b bs =>
      have hb := h b (by simp)
      simp only [utf8DecodeAux, if_pos hb]
      rw [ih bs (by simp at hf; omega) (fun x hx => h x (by simp [hx]))]
      rfl

theorem percentDecode_keep (cs : List Char) (h : ∀ c ∈ cs, keepChar c = true) :
    percentDecode cs = String.mk cs := by
  unfold percentDecode percentDecodeBytes
  rw [percentDecodeBytesAux_keep cs.length cs (le_refl _) h]
  rw [utf8DecodeAux_ascii _ _ (by simp) (by
    intro b hb
    rcases List.mem_map.mp hb with ⟨c, hc, hbc⟩
    exact hbc ▸ keepChar_bounds (h c hc))]
  rw [List.map_map]
  have hid : (Char.ofNat ∘ Char.toNat) = id := funext Char.ofNat_toNat
  rw [hid, List.map_id]

theorem splitOnChar_ne_nil (sep : Char) (cs : List Char) : splitOnChar sep cs ≠ [] := by
  cases cs with
  | nil => simp [splitOnChar]
  | cons c cs =>
    simp only [splitOnChar]
    rcases hs : splitOnChar sep cs with _ | ⟨g, gs⟩
    · simp
    · by_cases h : c = sep <;> simp [h]

theorem splitOnChar_no_sep (sep : Char) (cs : List Char) (h : sep ∉ cs) :
    splitOnChar sep cs = [cs] := by
  induction cs with
  | nil => rfl
  | cons c cs ih =>
    have hcs : sep ∉ cs := fun hx => h (by simp [hx])
    have hc : ¬(c = sep) := fun hx => h (by simp [hx])
    simp only [splitOnChar, ih hcs]
    simp [hc]

theorem splitOnChar_sep_append (sep : Char) (x t : List Char) (hx : sep ∉ x) :
    splitOnChar sep (x ++ sep :: t) = x :: splitOnChar sep t := by
  induction x with
  | nil =>
    simp only [List.nil_append]
    rcases hs : splitOnChar sep t with _ | ⟨g, gs⟩
    · exact absurd hs (splitOnChar_ne_nil sep t)
    · simp only [splitOnChar, hs]
      simp
  | cons c x ih =>
    have hxs : sep ∉ x := fun h => hx (by simp [h])
    have hc : ¬(c = sep) := fun h => hx (by simp [h])
    simp only [List.cons_append, splitOnChar, List.append_eq, ih hxs]
    simp [hc]

theorem joinAmp_split (parts : List (List Char)) (h : ∀ p ∈ parts, '&' ∉ p)
    (hne : parts ≠ []) : splitOnChar '&' (joinAmp parts) = parts := by
  induction parts with
  | nil => contradiction
  | cons p parts ih =>
    cases parts with
    | nil => exact splitOnChar_no_sep '&' p (h p (by simp))
    | cons q rest =>
      show splitOnChar '&' (p ++ '&' :: joinAmp (q :: rest)) = _
      rw [splitOnChar_sep_append '&' p _ (h p (by simp))]
      rw [ih (fun x hx => h x (by simp [hx])) (by simp)]

theorem splitFirstEq_append (k v : List Char) (hk : '=' ∉ k) :
    splitFirstEq (k ++ '=' :: v) = (k, v) := by
  induction k with
  | nil => simp [splitFirstEq]
  | cons c k ih =>
    have hc : ¬(c = '=') := fun h => hk (by simp [h])
    have hks : '=' ∉ k := fun h => hk (by simp [h])
    simp only [List.cons_append, splitFirstEq, List.append_eq, if_neg hc, ih hks]

theorem afterFirstQmark_append (xs ys : List Char) (h : '?' ∉ xs) :
    afterFirstQmark (xs ++ '?' :: ys) = ys := by
  induction xs with
  | nil => simp [afterFirstQmark]
  | cons c xs ih =>
    have hc : ¬(c = '?') := fun hx => h (by simp [hx])
    simp only [List.cons_append, afterFirstQmark, if_neg hc]
    exact ih (fun hx => h (by simp [hx]))

theorem beforeHash_of_no_hash (cs : List Char) (h : '#' ∉ cs) : beforeHash cs = cs := by
  unfold beforeHash
  induction cs with
  | nil => rfl
  | cons c cs ih =>
    have hc : c ≠ '#' := fun hx => h (by simp [hx])
    rw [List.takeWhile_cons]
    simp [hc, ih (fun hx => h (by simp [hx]))]

theorem filterMap_map_eq_of_forall {α : Type} (l : List α) (g : α → List Char)
    (f : List Char → Option α) (h : ∀ x ∈ l, f (g x) = some x) :
    (l.map g).filterMap f = l := by
  induction l with
  | nil => rfl
  | cons a l ih =>
    simp only [List.map_cons, List.filterMap_cons, h a (by simp)]
    rw [ih (fun x hx => h x (by simp [hx]))]

/-- A query pair whose key and value consist only of characters that the
form-encoding keeps verbatim. -/
def plainPair (kv : String × String) : Prop :=
  (∀ c ∈ kv.1.data, keepChar c = true) ∧ (∀ c ∈ kv.2.data, keepChar c = true)

theorem encPair_plain (kv : String × String) (h : plainPair kv) :
    encPair kv = kv.1.data ++ '=' :: kv.2.data := by
  unfold encPair formEncode
  rw [flatMap_formEncodeChar_keep _ h.1, flatMap_formEncodeChar_keep _ h.2]

theorem mem_encPair_plain (kv : String × String) (h : plainPair kv) (c : Char)
    (hc : c ∈ encPair kv) : c = '=' ∨ keepChar c = true := by
  rw [encPair_plain kv h] at hc
  simp at hc
  rcases hc with hc | hc | hc
  · right; exact h.1 c hc
  · left; exact hc
  · right; exact h.2 c hc

theorem mem_joinAmp {c : Char} (parts : List (List Char)) (hc : c ∈ joinAmp parts) :
    c = '&' ∨ ∃ p, p ∈ parts ∧ c ∈ p := by
  induction parts with
  | nil => simp [joinAmp] at hc
  | cons p parts ih =>
    cases parts with
    | nil => exact Or.inr ⟨p, by simp, hc⟩
    | cons q rest =>
      have hc2 : c ∈ p ++ '&' :: joinAmp (q :: rest) := hc
      rw [List.mem_append] at hc2
      rcases hc2 with hc2 | hc2
      · exact Or.inr ⟨p, by simp, hc2⟩
      · rcases List.mem_cons.mp hc2 with hc2 | hc2
        · exact Or.inl hc2
        · rcases ih hc2 with hc3 | ⟨x, hx, hcx⟩
          · exact Or.inl hc3
          · exact Or.inr ⟨x, List.mem_cons_of_mem p hx, hcx⟩

theorem serializeQuery_chars (l : List (String × String)) (h : ∀ kv ∈ l, plainPair kv)
    {c : Char} (hc : c ∈ serializeQuery l) : c = '&' ∨ c = '=' ∨ keepChar c = true := by
  rcases mem_joinAmp (l.map encPair) hc with h1 | ⟨p, hp, hcp⟩
  · exact Or.inl h1
  · rcases List.mem_map.mp hp with ⟨kv, hkv, hpe⟩
    rcases mem_encPair_plain kv (h kv hkv) c (hpe ▸ hcp) with h2 | h2
    · exact Or.inr (Or.inl h2)
    · exact Or.inr (Or.inr h2)

theorem parseQueryParams_serialize (l : List (String × String))
    (h : ∀ kv ∈ l, plainPair kv) :
    parseQueryParams (SEARCH_API_URL ++ "?" ++ String.mk (serializeQuery l)) = l := by
  have hnh : '#' ∉ serializeQuery l := by
    intro hc
    rcases serializeQuery_chars l h hc with h1 | h1 | h1
    · exact absurd h1 (by decide)
    · exact absurd h1 (by decide)
    · exact absurd h1 (by decide)
  have hdata : (SEARCH_API_URL ++ "?" ++ String.mk (serializeQuery l)).data
      = SEARCH_API_URL.data ++ '?' :: serializeQuery l := by
    rw [String.data_append, String.data_append]
    show (SEARCH_API_URL.data ++ ['?']) ++ serializeQuery l = _
    rw [List.append_assoc]
    rfl
  unfold parseQueryParams
  rw [hdata, afterFirstQmark_append _ _ (by decide), beforeHash_of_no_hash _ hnh]
  cases l with
  | nil => rfl
  | cons kv0 l0 =>
    show (splitOnChar '&' (joinAmp ((kv0 :: l0).map encPair))).filterMap _ = _
    have hamp : ∀ p ∈ (kv0 :: l0).map encPair, '&' ∉ p := by
      intro p hp hcp
      rcases List.mem_map.mp hp with ⟨kv, hkv, hpe⟩
      rcases mem_encPair_plain kv (h kv hkv) '&' (hpe ▸ hcp) with h2 | h2
      · exact absurd h2 (by decide)
      · exact absurd h2 (by decide)
    rw [joinAmp_split _ hamp (by simp)]
    apply filterMap_map_eq_of_forall
    intro x hx
    have hp := h x hx
    have hkeq : '=' ∉ x.1.data := by
      intro hc
      exact absurd (hp.1 '=' hc) (by decide)
    rw [encPair_plain x hp]
    have hne2 : ¬(x.1.data ++ '=' :: x.2.data = []) := by simp
    rw [if_neg hne2]
    rw [splitFirstEq_append _ _ hkeq]
    rw [percentDecode_keep _ hp.1, percentDecode_keep _ hp.2]

/-! ### Helper lemmas: reading back the merged entries -/

theorem recGet_append (l1 l2 : List (String × String)) (k : String) :
    recGet (l1 ++ l2) k =
      match recGet l2 k with
      | some v => some v
      | none => recGet l1 k := by
  induction l1 with
  | nil =>
    simp only [List.nil_append]
    cases recGet l2 k <;> simp [recGet]
  | cons kv l1 ih =>
    show (match recGet (l1 ++ l2) k with
          | some v => some v
          | none => if kv.1 = k then some kv.2 else none) = _
    rw [ih]
    cases hr2 : recGet l2 k
    · cases hr1 : recGet l1 k <;> simp [recGet, hr1]
    · rfl

theorem recGet_entryOpt_self (k : String) (v : Option String) :
    recGet (entryOpt k v) k = v := by
  cases v <;> simp [entryOpt, recGet]

theorem recGet_entryOpt_ne (k k2 : String) (v : Option String) (h : ¬(k = k2)) :
    recGet (entryOpt k v) k2 = none := by
  cases v <;> simp [entryOpt, recGet, h]

theorem recGet_mergedEntries_geo (p : SearchAPIParams) :
    recGet (mergedEntries p) "geo_id" =
      (spreadMerge DEFAULT_API_PARAMS p).geo_id.map jsNumToString := by
  simp only [mergedEntries, recGet_append, recGet_entryOpt_self,
    recGet_entryOpt_ne "meta_code" "geo_id" _ (by decide),
    recGet_entryOpt_ne "cat_id" "geo_id" _ (by decide),
    recGet_entryOpt_ne "summary" "geo_id" _ (by decide),
    recGet_entryOpt_ne "country" "geo_id" _ (by decide),
    recGet_entryOpt_ne "country_id" "geo_id" _ (by decide)]
  all_goals cases (spreadMerge DEFAULT_API_PARAMS p).geo_id <;> rfl

theorem recGet_mergedEntries_cat (p : SearchAPIParams) :
    recGet (mergedEntries p) "cat_id" =
      (spreadMerge DEFAULT_API_PARAMS p).cat_id.map jsNumToString := by
  simp only [mergedEntries, recGet_append, recGet_entryOpt_self,
    recGet_entryOpt_ne "meta_code" "cat_id" _ (by decide),
    recGet_entryOpt_ne "geo_id" "cat_id" _ (by decide),
    recGet_entryOpt_ne "summary" "cat_id" _ (by decide),
    recGet_entryOpt_ne "country" "cat_id" _ (by decide),
    recGet_entryOpt_ne "country_id" "cat_id" _ (by decide)]
  all_goals cases (spreadMerge DEFAULT_API_PARAMS p).cat_id <;> rfl

theorem recGet_mergedEntries_meta (p : SearchAPIParams) :
    recGet (mergedEntries p) "meta_code" =
      (spreadMerge DEFAULT_API_PARAMS p).meta_code := by
  simp only [mergedEntries, recGet_append, recGet_entryOpt_self,
    recGet_entryOpt_ne "cat_id" "meta_code" _ (by decide),
    recGet_entryOpt_ne "geo_id" "meta_code" _ (by decide),
    recGet_entryOpt_ne "summary" "meta_code" _ (by decide),
    recGet_entryOpt_ne "country" "meta_code" _ (by decide),
    recGet_entryOpt_ne "country_id" "meta_code" _ (by decide)]
  all_goals cases (spreadMerge DEFAULT_API_PARAMS p).meta_code <;> rfl

theorem recGet_mergedEntries_summary (p : SearchAPIParams) :
    recGet (mergedEntries p) "summary" =
      (spreadMerge DEFAULT_API_PARAMS p).summary.map jsNumToString := by
  simp only [mergedEntries, recGet_append, recGet_entryOpt_self,
    recGet_entryOpt_ne "meta_code" "summary" _ (by decide),
    recGet_entryOpt_ne "geo_id" "summary" _ (by decide),
    recGet_entryOpt_ne "cat_id" "summary" _ (by decide),
    recGet_entryOpt_ne "country" "summary" _ (by decide),
    recGet_entryOpt_ne "country_id" "summary" _ (by decide)]

theorem recGet_mergedEntries_country (p : SearchAPIParams) :
    recGet (mergedEntries p) "country" =
      (spreadMerge DEFAULT_API_PARAMS p).country := by
  simp only [mergedEntries, recGet_append, recGet_entryOpt_self,
    recGet_entryOpt_ne "meta_code" "country" _ (by decide),
    recGet_entryOpt_ne "geo_id" "country" _ (by decide),
    recGet_entryOpt_ne "cat_id" "country" _ (by decide),
    recGet_entryOpt_ne "summary" "country" _ (by decide),
    recGet_entryOpt_ne "country_id" "country" _ (by decide)]
  all_goals cases (spreadMerge DEFAULT_API_PARAMS p).country <;> rfl

theorem recGet_mergedEntries_cid (p : SearchAPIParams) :
    recGet (mergedEntries p) "country_id" =
      (spreadMerge DEFAULT_API_PARAMS p).country_id := by
  simp only [mergedEntries, recGet_append, recGet_entryOpt_self,
    recGet_entryOpt_ne "meta_code" "country_id" _ (by decide),
    recGet_entryOpt_ne "geo_id" "country_id" _ (by decide),
    recGet_entryOpt_ne "cat_id" "country_id" _ (by decide),
    recGet_entryOpt_ne "summary" "country_id" _ (by decide),
    recGet_entryOpt_ne "country" "country_id" _ (by decide)]
  all_goals cases (spreadMerge DEFAULT_API_PARAMS p).country_id <;> rfl

theorem parseIntTen_jsNumToString (v : JSNum) : parseIntTen (jsNumToString v) = v := by
  rcases v with i | _
  · exact parseIntTen_jsNum i
  · decide

theorem intField_map_jsNum (o : Option JSNum) : intField (o.map jsNumToString) = o := by
  rcases o with _ | v
  · rfl
  · simp [intField, jsNumToString_ne_empty v, parseIntTen_jsNumToString]

theorem strField_some_ne (o : Option String) (h : ∀ s, o = some s → s ≠ "") :
    strField o = o := by
  rcases o with _ | s
  · rfl
  · simp [strField, h s rfl]

theorem keepChar_of_digit {c : Char} (h : isDigitChar c = true) : keepChar c = true := by
  obtain ⟨h1, h2⟩ := isDigitChar_bounds h
  simp [keepChar]
  omega

theorem jsNumToString_plain (v : JSNum) : ∀ c ∈ (jsNumToString v).data, keepChar c = true := by
  rcases v with i | _
  · simp only [jsNumToString]
    by_cases h : i < 0
    · rw [if_pos h]
      intro c hc
      have hc2 : c ∈ '-' :: natDecimal i.natAbs := hc
      rcases List.mem_cons.mp hc2 with hc3 | hc3
      · subst hc3; decide
      · exact keepChar_of_digit (natDecimalAux_digits _ _ [] (by simp) c hc3)
    · rw [if_neg h]
      intro c hc
      have hc2 : c ∈ natDecimal i.natAbs := hc
      exact keepChar_of_digit (natDecimalAux_digits _ _ [] (by simp) c hc2)
  · intro c hc
    have hc2 : c ∈ ['N', 'a', 'N'] := hc
    rcases List.mem_cons.mp hc2 with h3 | h3
    · subst h3; decide
    · rcases List.mem_cons.mp h3 with h4 | h4
      · subst h4; decide
      · rcases List.mem_cons.mp h4 with h5 | h5
        · subst h5; decide
        · simp at h5

/-- Validity of a caller-supplied parameter set for the round-trip: string
fields, when present, are nonempty and consist of characters the query
serialization keeps verbatim (as every value in this repository does). -/
def strOkB (o : Option String) : Bool :=
  match o with
  | some s => (s != "") && s.data.all keepChar
  | none => true

/-- Validity of a whole parameter set (see `strOkB`; numeric fields need no
side condition, their decimal rendering always round-trips). -/
def ValidParams (p : SearchAPIParams) : Bool :=
  strOkB p.meta_code && strOkB p.country && strOkB p.country_id

theorem strOkB_plain {o : Option String} (h : strOkB o = true) {s : String}
    (hs : o = some s) : (∀ c ∈ s.data, keepChar c = true) ∧ s ≠ "" := by
  subst hs
  simp [strOkB] at h
  exact ⟨fun c hc => h.2 c hc, h.1⟩

theorem plainPair_mk {k s : String} (hk : ∀ c ∈ k.data, keepChar c = true)
    (hs : ∀ c ∈ s.data, keepChar c = true) : plainPair (k, s) := ⟨hk, hs⟩

theorem mem_entryOpt {kv : String × String} {k : String} {v : Option String}
    (h : kv ∈ entryOpt k v) : ∃ s, v = some s ∧ kv = (k, s) := by
  rcases v with _ | s
  · simp [entryOpt] at h
  · simp [entryOpt] at h
    exact ⟨s, rfl, h⟩

theorem mergedEntries_plain (p : SearchAPIParams) (h : ValidParams p = true) :
    ∀ kv ∈ mergedEntries p, plainPair kv := by
  have hm : ValidParams p = true := h
  simp only [ValidParams, Bool.and_eq_true] at hm
  intro kv hkv
  unfold mergedEntries at hkv
  simp only [List.append_assoc, List.mem_append] at hkv
  rcases hkv with h1 | h1 | h1 | h1 | h1 | h1
  · rcases mem_entryOpt h1 with ⟨s, hv, rfl⟩
    refine plainPair_mk (by decide) ?_
    rcases ho : (spreadMerge DEFAULT_API_PARAMS p).summary with _ | w
    · rw [ho] at hv; simp at hv
    · rw [ho] at hv
      simp at hv
      subst hv
      exact jsNumToString_plain w
  · rcases mem_entryOpt h1 with ⟨s, hv, rfl⟩
    refine plainPair_mk (by decide) ?_
    have hc : (spreadMerge DEFAULT_API_PARAMS p).country = some s := hv
    rcases hp : p.country with _ | w
    · rw [show (spreadMerge DEFAULT_API_PARAMS p).country = some "GB" from by
        simp [spreadMerge, DEFAULT_API_PARAMS, hp]] at hc
      simp at hc
      subst hc
      intro c hcc
      revert c hcc
      decide
    · rw [show (spreadMerge DEFAULT_API_PARAMS p).country = some w from by
        simp [spreadMerge, hp]] at hc
      simp at hc
      subst hc
      exact (strOkB_plain hm.1.2 hp).1
  · rcases mem_entryOpt h1 with ⟨s, hv, rfl⟩
    refine plainPair_mk (by decide) ?_
    have hc : (spreadMerge DEFAULT_API_PARAMS p).country_id = some s := hv
    rcases hp : p.country_id with _ | w
    · rw [show (spreadMerge DEFAULT_API_PARAMS p).country_id = some "GB" from by
        simp [spreadMerge, DEFAULT_API_PARAMS, hp]] at hc
      simp at hc
      subst hc
      intro c hcc
      revert c hcc
      decide
    · rw [show (spreadMerge DEFAULT_API_PARAMS p).country_id = some w from by
        simp [spreadMerge, hp]] at hc
      simp at hc
      subst hc
      exact (strOkB_plain hm.2 hp).1
  · rcases mem_entryOpt h1 with ⟨s, hv, rfl⟩
    refine plainPair_mk (by decide) ?_
    rcases ho : (spreadMerge DEFAULT_API_PARAMS p).geo_id with _ | w
    · rw [ho] at hv; simp at hv
    · rw [ho] at hv
      simp at hv
      subst hv
      exact jsNumToString_plain w
  · rcases mem_entryOpt h1 with ⟨s, hv, rfl⟩
    refine plainPair_mk (by decide) ?_
    rcases ho : (spreadMerge DEFAULT_API_PARAMS p).cat_id with _ | w
    · rw [ho] at hv; simp at hv
    · rw [ho] at hv
      simp at hv
      subst hv
      exact jsNumToString_plain w
  · rcases mem_entryOpt h1 with ⟨s, hv, rfl⟩
    refine plainPair_mk (by decide) ?_
    have hc : (spreadMerge DEFAULT_API_PARAMS p).meta_code = some s := hv
    rcases hp : p.meta_code with _ | w
    · rw [show (spreadMerge DEFAULT_API_PARAMS p).meta_code = p.meta_code from by
        simp [spreadMerge, DEFAULT_API_PARAMS, hp], hp] at hc
      cases hc
    · rw [show (spreadMerge DEFAULT_API_PARAMS p).meta_code = some w from by
        simp [spreadMerge, hp]] at hc
      simp at hc
      subst hc
      exact (strOkB_plain hm.1.1 hp).1

/-! ### Helper lemmas: the comparison loop -/

/-- Whether one compared key passes: an undefined expected value imposes no
constraint, otherwise the values must be strictly equal. -/
def keyOk (actual expected : SearchAPIParams) (key : String) : Bool :=
  if getParam expected key = JSVal.undef then true
  else jsStrictEq (getParam actual key) (getParam expected key)

/-- The difference line pushed for a failing key. -/
def diffEntry (actual expected : SearchAPIParams) (key : String) : String :=
  key ++ ": expected " ++ jsValToString (getParam expected key) ++ ", got " ++
    jsValToString (getParam actual key)

/-- The difference lines of the three compared keys, in loop order. -/
def diffList (actual expected : SearchAPIParams) : List String :=
  (if keyOk actual expected "cat_id" then [] else [diffEntry actual expected "cat_id"]) ++
  (if keyOk actual expected "geo_id" then [] else [diffEntry actual expected "geo_id"]) ++
  (if keyOk actual expected "meta_code" then [] else [diffEntry actual expected "meta_code"])

theorem compareStep_fst (a e : SearchAPIParams) (acc : Bool × List String) (k : String) :
    (compareStep a e acc k).1 = (acc.1 && keyOk a e k) := by
  unfold compareStep keyOk
  by_cases h1 : getParam e k = JSVal.undef
  · simp [h1]
  · by_cases h2 : jsStrictEq (getParam a k) (getParam e k) <;> simp [h1, h2]

theorem compareStep_snd (a e : SearchAPIParams) (acc : Bool × List String) (k : String) :
    (compareStep a e acc k).2 = acc.2 ++ (if keyOk a e k then [] else [diffEntry a e k]) := by
  unfold compareStep keyOk diffEntry
  by_cases h1 : getParam e k = JSVal.undef
  · simp [h1]
  · by_cases h2 : jsStrictEq (getParam a k) (getParam e k) <;> simp [h1, h2]

theorem compareParams_eq (a e : SearchAPIParams) :
    compareParams a e =
      { matched := keyOk a e "cat_id" && keyOk a e "geo_id" && keyOk a e "meta_code"
        actualParams := a
        expectedParams := e
        differences := if diffList a e = [] then none else some (diffList a e) } := by
  unfold compareParams paramsToCompare diffList
  simp only [List.foldl_cons, List.foldl_nil, compareStep_fst, compareStep_snd]
  simp [List.append_assoc]

theorem matched_iff_diffList_nil (a e : SearchAPIParams) :
    (keyOk a e "cat_id" && keyOk a e "geo_id" && keyOk a e "meta_code") = true ↔
      diffList a e = [] := by
  unfold diffList
  by_cases h1 : keyOk a e "cat_id" <;> by_cases h2 : keyOk a e "geo_id" <;>
    by_cases h3 : keyOk a e "meta_code" <;> simp [h1, h2, h3]

theorem getParam_cat (p : SearchAPIParams) :
    getParam p "cat_id" = numVal p.cat_id := by
  simp [getParam]

theorem getParam_geo (p : SearchAPIParams) :
    getParam p "geo_id" = numVal p.geo_id := by
  simp [getParam]

theorem getParam_meta (p : SearchAPIParams) :
    getParam p "meta_code" = strVal p.meta_code := by
  simp [getParam]

theorem numKeyOk_iff (x y : Option JSNum) (hy : y ≠ some JSNum.nan) :
    (if numVal y = JSVal.undef then true else jsStrictEq (numVal x) (numVal y)) = true ↔
      (∀ v, y = some v → x = some v) := by
  rcases y with _ | v
  · simp [numVal]
  · rcases v with i | _
    · rcases x with _ | w
      · simp [numVal, jsStrictEq]
      · rcases w with j | _
        · simp only [numVal]
          constructor
          · intro h v hv
            cases hv
            simp [jsStrictEq] at h
            rw [h]
          · intro h
            have h2 := h (JSNum.num i) rfl
            cases h2
            simp [jsStrictEq]
        · simp only [numVal]
          constructor
          · intro h
            simp [jsStrictEq] at h
          · intro h
            have h2 := h (JSNum.num i) rfl
            cases h2
    · exact absurd rfl hy

theorem strKeyOk_iff (x y : Option String) :
    (if strVal y = JSVal.undef then true else jsStrictEq (strVal x) (strVal y)) = true ↔
      (∀ s, y = some s → x = some s) := by
  rcases y with _ | s
  · simp [strVal]
  · rcases x with _ | t
    · simp [strVal, jsStrictEq]
    · simp only [strVal]
      constructor
      · intro h u hu
        cases hu
        simp [jsStrictEq] at h
        rw [h]
      · intro h
        have h2 := h s rfl
        cases h2
        simp [jsStrictEq]

theorem keyOk_cat_iff (a e : SearchAPIParams) (h : e.cat_id ≠ some JSNum.nan) :
    keyOk a e "cat_id" = true ↔ (∀ v, e.cat_id = some v → a.cat_id = some v) := by
  unfold keyOk
  rw [getParam_cat, getParam_cat]
  exact numKeyOk_iff a.cat_id e.cat_id h

theorem keyOk_geo_iff (a e : SearchAPIParams) (h : e.geo_id ≠ some JSNum.nan) :
    keyOk a e "geo_id" = true ↔ (∀ v, e.geo_id = some v → a.geo_id = some v) := by
  unfold keyOk
  rw [getParam_geo, getParam_geo]
  exact numKeyOk_iff a.geo_id e.geo_id h

theorem keyOk_meta_iff (a e : SearchAPIParams) :
    keyOk a e "meta_code" = true ↔ (∀ s, e.meta_code = some s → a.meta_code = some s) := by
  unfold keyOk
  rw [getParam_meta, getParam_meta]
  exact strKeyOk_iff a.meta_code e.meta_code

theorem getParam_defaults_irrelevant (p : SearchAPIParams) (s : Option JSNum)
    (c ci : Option String) (k : String) :
    getParam { p with summary := s, country := c, country_id := ci } k = getParam p k := by
  simp [getParam]

theorem getCategoryMapping_cat (c : String) (m : CategoryMapping)
    (h : getCategoryMapping c = some m) : m.cat_id = 93 ∨ m.cat_id = 88 := by
  simp only [getCategoryMapping, CATEGORY_MAPPINGS, List.find?] at h
  by_cases h1 : ("Home Appliances" == c)
  · simp [h1] at h
    rw [← h]
    left
    rfl
  · by_cases h2 : ("Escorts and Massages" == c)
    · simp [h1, h2] at h
      rw [← h]
      right
      rfl
    · simp [h1, h2] at h

theorem getLocationMapping_geo (l : String) (m : LocationMapping)
    (h : getLocationMapping l = some m) : m.geo_id = 7 ∨ m.geo_id = 0 := by
  simp only [getLocationMapping, LOCATION_MAPPINGS, List.find?] at h
  by_cases h1 : ("London" == l)
  · simp [h1] at h
    rw [← h]
    left
    rfl
  · by_cases h2 : (("" : String) == l)
    · simp [h1, h2] at h
      rw [← h]
      right
      rfl
    · simp [h1, h2] at h

theorem mapCategory_ok (req : SearchParameters) (q : SearchAPIParams)
    (hq : mapCategory req = Except.ok q) :
    q.cat_id ≠ some JSNum.nan ∧ q.geo_id = none := by
  unfold mapCategory at hq
  rcases hc : req.category with _ | c
  · simp only [hc] at hq
    cases hq
    exact ⟨by simp, rfl⟩
  · simp only [hc] at hq
    by_cases hce : c = ""
    · rw [if_pos hce] at hq
      cases hq
      exact ⟨by simp, rfl⟩
    · rw [if_neg hce] at hq
      rcases hcm : getCategoryMapping c with _ | m
      · simp only [hcm] at hq
        cases hq
      · simp only [hcm] at hq
        cases hq
        refine ⟨?_, rfl⟩
        rcases getCategoryMapping_cat c m hcm with h9 | h9 <;> simp [h9]

theorem mapToAPIParams_no_nan (req : SearchParameters) (p : SearchAPIParams)
    (h : mapToAPIParams req = Except.ok p) :
    p.cat_id ≠ some JSNum.nan ∧ p.geo_id ≠ some JSNum.nan := by
  unfold mapToAPIParams at h
  rcases hq : mapCategory req with e | q
  · simp only [hq] at h
    cases h
  · simp only [hq] at h
    obtain ⟨hqc, hqg⟩ := mapCategory_ok req q hq
    rcases hl : req.location with _ | l
    · simp only [hl] at h
      cases h
      exact ⟨hqc, by rw [hqg]; simp⟩
    · simp only [hl] at h
      rcases hm : getLocationMapping l with _ | m
      · simp only [hm] at h
        cases h
      · simp only [hm] at h
        cases h
        refine ⟨hqc, ?_⟩
        rcases getLocationMapping_geo l m hm with h9 | h9 <;> simp [h9]


/-! ### Concrete values used by the claim instances -/

/-- A captured request URL whose geo_id does not match London. -/
def mismatchUrl : String := "https://search.vivastreet.co.uk/ajax/regions_tree.php?geo_id=15"

/-- A captured request URL whose geo_id matches London. -/
def matchUrl : String := "https://search.vivastreet.co.uk/ajax/regions_tree.php?geo_id=7"

/-- The UI request validating against London. -/
def londonRequest : SearchParameters := { location := some "London" }

/-- The validator state after arming and capturing `mismatchUrl`. -/
def mismatchState : ValidatorState :=
  onRouteRequest (startInterception initialValidatorState) mismatchUrl

/-- The validator state after arming and capturing `matchUrl`. -/
def matchState : ValidatorState :=
  onRouteRequest (startInterception initialValidatorState) matchUrl

/-- The query keys `toSearchAPIParams` recognizes. -/
def recognizedKeys : List String :=
  ["geo_id", "cat_id", "meta_code", "summary", "country", "country_id"]

theorem recGet_cons_ne (kv : String × String) (r : List (String × String)) (k : String)
    (h : ¬(kv.1 = k)) : recGet (kv :: r) k = recGet r k := by
  show (match recGet r k with
        | some v => some v
        | none => if kv.1 = k then some kv.2 else none) = _
  cases recGet r k <;> simp [h]

/-- A parameter set exercising every field kind for the round-trip witness. -/
def roundtripExample : SearchAPIParams :=
  { geo_id := some (JSNum.num (-3)), cat_id := some (JSNum.num 88),
    meta_code := some "adult_services", summary := some (JSNum.num 2),
    country := some "FR" }

/-! ### Claim C1 -/

/-- C1: for every `SearchAPIParams` `p` containing only recognized fields
with valid values (`ValidParams`: present string fields are nonempty and
consist of characters the query encoding keeps verbatim), parsing the URL
built from `p` yields exactly `p` spread over the defaults
`{summary: 1, country: "GB", country_id: "GB"}`, fields present in `p`
taking precedence over the defaults. -/
theorem parseUrl_buildUrl_roundtrip (p : SearchAPIParams) (h : ValidParams p = true) :
    toSearchAPIParams (parseQueryParams (buildSearchAPIUrl p)) =
      spreadMerge DEFAULT_API_PARAMS p := by
  have hv : ValidParams p = true := h
  simp only [ValidParams, Bool.and_eq_true] at hv
  have hmeta : ∀ s, (spreadMerge DEFAULT_API_PARAMS p).meta_code = some s → s ≠ "" := by
    intro s hs
    rcases hp : p.meta_code with _ | w
    · rw [show (spreadMerge DEFAULT_API_PARAMS p).meta_code = none from by
        simp [spreadMerge, DEFAULT_API_PARAMS, hp]] at hs
      cases hs
    · rw [show (spreadMerge DEFAULT_API_PARAMS p).meta_code = some w from by
        simp [spreadMerge, hp]] at hs
      cases hs
      exact (strOkB_plain hv.1.1 hp).2
  have hcountry : ∀ s, (spreadMerge DEFAULT_API_PARAMS p).country = some s → s ≠ "" := by
    intro s hs
    rcases hp : p.country with _ | w
    · rw [show (spreadMerge DEFAULT_API_PARAMS p).country = some "GB" from by
        simp [spreadMerge, DEFAULT_API_PARAMS, hp]] at hs
      cases hs
      decide
    · rw [show (spreadMerge DEFAULT_API_PARAMS p).country = some w from by
        simp [spreadMerge, hp]] at hs
      cases hs
      exact (strOkB_plain hv.1.2 hp).2
  have hcid : ∀ s, (spreadMerge DEFAULT_API_PARAMS p).country_id = some s → s ≠ "" := by
    intro s hs
    rcases hp : p.country_id with _ | w
    · rw [show (spreadMerge DEFAULT_API_PARAMS p).country_id = some "GB" from by
        simp [spreadMerge, DEFAULT_API_PARAMS, hp]] at hs
      cases hs
      decide
    · rw [show (spreadMerge DEFAULT_API_PARAMS p).country_id = some w from by
        simp [spreadMerge, hp]] at hs
      cases hs
      exact (strOkB_plain hv.2 hp).2
  unfold buildSearchAPIUrl
  rw [parseQueryParams_serialize (mergedEntries p) (mergedEntries_plain p h)]
  unfold toSearchAPIParams
  rw [recGet_mergedEntries_geo, recGet_mergedEntries_cat, recGet_mergedEntries_meta,
    recGet_mergedEntries_summary, recGet_mergedEntries_country, recGet_mergedEntries_cid,
    intField_map_jsNum, intField_map_jsNum, intField_map_jsNum,
    strField_some_ne _ hmeta, strField_some_ne _ hcountry, strField_some_ne _ hcid]

/-- Witness for C1, at a parameter set with a negative geo_id, every string
field kind, and an explicit summary overriding the default. -/
theorem parseUrl_buildUrl_roundtrip_witness :
    ValidParams roundtripExample = true ∧
    toSearchAPIParams (parseQueryParams (buildSearchAPIUrl roundtripExample)) =
      spreadMerge DEFAULT_API_PARAMS roundtripExample :=
  ⟨by decide, parseUrl_buildUrl_roundtrip roundtripExample (by decide)⟩

/-! ### Claim C2 -/

/-- C2: the comparison checks exactly the three fields cat_id, geo_id and
meta_code: `matched` holds iff every one of them that the expected set
defines is equal in the actual set (an undefined expected field imposes no
constraint); the default fields summary, country and country_id of either
set never influence the outcome; and every expected set the translator
produces satisfies the no-NaN side conditions. -/
theorem compareParams_restricted (actual expected : SearchAPIParams)
    (h1 : expected.cat_id ≠ some JSNum.nan) (h2 : expected.geo_id ≠ some JSNum.nan) :
    ((compareParams actual expected).matched = true ↔
      ((∀ v, expected.cat_id = some v → actual.cat_id = some v) ∧
       (∀ v, expected.geo_id = some v → actual.geo_id = some v) ∧
       (∀ s, expected.meta_code = some s → actual.meta_code = some s))) ∧
    (∀ s1 s2 : Option JSNum, ∀ c1 i1 c2 i2 : Option String,
      (compareParams { actual with summary := s1, country := c1, country_id := i1 }
          { expected with summary := s2, country := c2, country_id := i2 }).matched =
        (compareParams actual expected).matched ∧
      (compareParams { actual with summary := s1, country := c1, country_id := i1 }
          { expected with summary := s2, country := c2, country_id := i2 }).differences =
        (compareParams actual expected).differences) ∧
    (∀ req p, mapToAPIParams req = Except.ok p →
      p.cat_id ≠ some JSNum.nan ∧ p.geo_id ≠ some JSNum.nan) := by
  refine ⟨?_, ?_, mapToAPIParams_no_nan⟩
  · rw [compareParams_eq]
    show (keyOk actual expected "cat_id" && keyOk actual expected "geo_id" &&
      keyOk actual expected "meta_code") = true ↔ _
    simp only [Bool.and_eq_true]
    rw [and_assoc]
    exact and_congr (keyOk_cat_iff actual expected h1)
      (and_congr (keyOk_geo_iff actual expected h2) (keyOk_meta_iff actual expected))
  · intro s1 s2 c1 i1 c2 i2
    have hok : ∀ k, keyOk { actual with summary := s1, country := c1, country_id := i1 }
        { expected with summary := s2, country := c2, country_id := i2 } k =
        keyOk actual expected k := by
      intro k
      unfold keyOk
      rw [getParam_defaults_irrelevant actual s1 c1 i1 k,
        getParam_defaults_irrelevant expected s2 c2 i2 k]
    have hde : ∀ k, diffEntry { actual with summary := s1, country := c1, country_id := i1 }
        { expected with summary := s2, country := c2, country_id := i2 } k =
        diffEntry actual expected k := by
      intro k
      unfold diffEntry
      rw [getParam_defaults_irrelevant actual s1 c1 i1 k,
        getParam_defaults_irrelevant expected s2 c2 i2 k]
    have hdl : diffList { actual with summary := s1, country := c1, country_id := i1 }
        { expected with summary := s2, country := c2, country_id := i2 } =
        diffList actual expected := by
      unfold diffList
      rw [hok, hok, hok, hde, hde, hde]
    rw [compareParams_eq, compareParams_eq]
    exact ⟨by rw [hok, hok, hok], by rw [hdl]⟩

/-- Witness for C2 at concrete sets: a matching pair and the translator
side condition. -/
theorem compareParams_restricted_witness :
    (compareParams { geo_id := some (JSNum.num 7), cat_id := some (JSNum.num 88) }
        { cat_id := some (JSNum.num 88) }).matched = true ↔
      ((∀ v, ({ cat_id := some (JSNum.num 88) } : SearchAPIParams).cat_id = some v →
        ({ geo_id := some (JSNum.num 7), cat_id := some (JSNum.num 88) } : SearchAPIParams).cat_id = some v) ∧
       (∀ v, ({ cat_id := some (JSNum.num 88) } : SearchAPIParams).geo_id = some v →
        ({ geo_id := some (JSNum.num 7), cat_id := some (JSNum.num 88) } : SearchAPIParams).geo_id = some v) ∧
       (∀ s, ({ cat_id := some (JSNum.num 88) } : SearchAPIParams).meta_code = some s →
        ({ geo_id := some (JSNum.num 7), cat_id := some (JSNum.num 88) } : SearchAPIParams).meta_code = some s)) :=
  (compareParams_restricted { geo_id := some (JSNum.num 7), cat_id := some (JSNum.num 88) }
    { cat_id := some (JSNum.num 88) } (by decide) (by decide)).1

/-! ### Claim C3 -/

/-- C3 counterexample: with a captured request whose parameters mismatch
the expectation, `validateInterceptedRequest` throws but does NOT stop the
session — the captured request survives, so a second validate call does not
fail with the no-intercepted-request error (refuting "whenever it is called
with a captured request present, consuming that request implicitly stops
the session"). -/
theorem validate_mismatch_keeps_capture_cex :
    mismatchState.interceptedRequest = some mismatchUrl ∧
    (validateInterceptedRequest mismatchState londonRequest).1 ≠ Except.ok () ∧
    (validateInterceptedRequest mismatchState londonRequest).2 = mismatchState ∧
    (validateInterceptedRequest (validateInterceptedRequest mismatchState londonRequest).2
        londonRequest).1 ≠ Except.error ValidationError.noInterceptedRequest := by decide

/-- C3 (amended): validating with no captured request fails with the
no-intercepted-request error and leaves the state unchanged; when a
captured request is present and validation succeeds, the session is
implicitly stopped (hook removed, capture cleared) and a second validate
call fails with the no-intercepted-request error; on any failure the state
is left untouched (the captured request is retained). -/
theorem validateInterceptedRequest_lifecycle (st : ValidatorState) (e : SearchParameters)
    (url : String) :
    (st.interceptedRequest = none →
      validateInterceptedRequest st e = (Except.error ValidationError.noInterceptedRequest, st)) ∧
    (st.interceptedRequest = some url → (validateInterceptedRequest st e).1 = Except.ok () →
      (validateInterceptedRequest st e).2 = stopInterception st ∧
      (validateInterceptedRequest st e).2.interceptedRequest = none ∧
      (validateInterceptedRequest st e).2.routeInstalled = false ∧
      (∀ e2, validateInterceptedRequest (validateInterceptedRequest st e).2 e2 =
        (Except.error ValidationError.noInterceptedRequest, (validateInterceptedRequest st e).2))) ∧
    ((validateInterceptedRequest st e).1 ≠ Except.ok () →
      (validateInterceptedRequest st e).2 = st) := by
  refine ⟨?_, ?_, ?_⟩
  · intro h
    unfold validateInterceptedRequest
    simp only [h]
  · intro hs hok
    unfold validateInterceptedRequest at hok ⊢
    simp only [hs] at hok ⊢
    rcases hm : mapToAPIParams e with e2 | q
    · simp only [hm] at hok ⊢
      cases hok
    · simp only [hm] at hok ⊢
      by_cases hv : (compareParams (toSearchAPIParams (parseQueryParams url)) q).matched
      · simp only [hv, if_true]
        refine ⟨by trivial, by trivial, by trivial, ?_⟩
        intro e2
        rfl
      · simp only [hv] at hok
        simp at hok
  · intro hok
    unfold validateInterceptedRequest at hok ⊢
    rcases hs : st.interceptedRequest with _ | url2
    · simp only [hs]
    · simp only [hs] at hok ⊢
      rcases hm : mapToAPIParams e with e2 | q
      · simp only [hm]
      · simp only [hm] at hok ⊢
        by_cases hv : (compareParams (toSearchAPIParams (parseQueryParams url2)) q).matched
        · simp only [hv, if_true] at hok
          simp at hok
        · simp only [hv]
          simp

/-- Witness for C3: the idle state fails; a matching capture validates,
stops the session, and a repeat call fails. -/
theorem validateInterceptedRequest_lifecycle_witness :
    validateInterceptedRequest initialValidatorState londonRequest =
      (Except.error ValidationError.noInterceptedRequest, initialValidatorState) ∧
    (validateInterceptedRequest matchState londonRequest).2.interceptedRequest = none ∧
    (validateInterceptedRequest matchState londonRequest).2.routeInstalled = false ∧
    validateInterceptedRequest (validateInterceptedRequest matchState londonRequest).2 londonRequest =
      (Except.error ValidationError.noInterceptedRequest,
        (validateInterceptedRequest matchState londonRequest).2) :=
  ⟨(validateInterceptedRequest_lifecycle initialValidatorState londonRequest "").1 rfl,
   ((validateInterceptedRequest_lifecycle matchState londonRequest matchUrl).2.1
      (by decide) (by decide)).2.1,
   ((validateInterceptedRequest_lifecycle matchState londonRequest matchUrl).2.1
      (by decide) (by decide)).2.2.1,
   ((validateInterceptedRequest_lifecycle matchState londonRequest matchUrl).2.1
      (by decide) (by decide)).2.2.2 londonRequest⟩

/-! ### Claim C4 -/

/-- C4 counterexample: the empty-string category label has no registry
entry, yet translation does not fail — the truthiness guard skips the empty
string, so the claim's "any string, including the empty string" is false. -/
theorem translate_empty_category_cex :
    getCategoryMapping "" = none ∧
    mapToAPIParams { category := some "" } = Except.ok {} := by decide

/-- C4 (amended): for every UI request whose category field is present and
nonempty and has no entry in the category registry, translation fails with
the mapping-not-found error naming that label and carrying the guidance
message on where to register a new mapping. -/
theorem translate_unknown_category (req : SearchParameters) (c : String)
    (hc : req.category = some c) (hne : ¬(c = "")) (hmap : getCategoryMapping c = none) :
    mapToAPIParams req =
      Except.error (ValidationError.mappingNotFound MappingKind.category c
        (categoryNotFoundMsg c)) := by
  unfold mapToAPIParams mapCategory
  simp only [hc, if_neg hne, hmap]

/-- Witness for C4 at the spec's concrete label. -/
theorem translate_unknown_category_witness :
    mapToAPIParams { category := some "Nonexistent Category" } =
      Except.error (ValidationError.mappingNotFound MappingKind.category "Nonexistent Category"
        (categoryNotFoundMsg "Nonexistent Category")) :=
  translate_unknown_category { category := some "Nonexistent Category" }
    "Nonexistent Category" rfl (by decide) (by decide)

/-! ### Claim C5 -/

/-- C5 counterexample: a non-numeric geo_id does not become absent — the
field is present and holds NaN (parseInt's result), refuting "that field
being absent in the output". -/
theorem parseUrl_non_numeric_cex :
    toSearchAPIParams (parseQueryParams
        "https://search.vivastreet.co.uk/ajax/regions_tree.php?geo_id=abc&bogus=1") =
      { geo_id := some JSNum.nan } ∧
    ({ geo_id := some JSNum.nan } : SearchAPIParams).geo_id ≠ none := by decide

/-- C5 (amended): integer fields are converted with `parseInt` whenever the
raw value is a nonempty string — the result is present even when the parse
yields NaN (no exception is thrown, the conversion is total) — and
unrecognized query parameters are ignored. -/
theorem parseUrl_type_conversion (r : List (String × String)) (s : String) (k v : String) :
    (recGet r "geo_id" = some s → ¬(s = "") →
      (toSearchAPIParams r).geo_id = some (parseIntTen s)) ∧
    (recGet r "cat_id" = some s → ¬(s = "") →
      (toSearchAPIParams r).cat_id = some (parseIntTen s)) ∧
    (recGet r "summary" = some s → ¬(s = "") →
      (toSearchAPIParams r).summary = some (parseIntTen s)) ∧
    (¬(k ∈ recognizedKeys) → toSearchAPIParams ((k, v) :: r) = toSearchAPIParams r) := by
  refine ⟨?_, ?_, ?_, ?_⟩
  · intro hr hne
    simp [toSearchAPIParams, intField, hr, hne]
  · intro hr hne
    simp [toSearchAPIParams, intField, hr, hne]
  · intro hr hne
    simp [toSearchAPIParams, intField, hr, hne]
  · intro hk
    simp only [recognizedKeys, List.mem_cons, List.not_mem_nil, or_false, not_or] at hk
    obtain ⟨hk1, hk2, hk3, hk4, hk5, hk6⟩ := hk
    unfold toSearchAPIParams
    rw [recGet_cons_ne (k, v) r "geo_id" hk1, recGet_cons_ne (k, v) r "cat_id" hk2,
      recGet_cons_ne (k, v) r "meta_code" hk3, recGet_cons_ne (k, v) r "summary" hk4,
      recGet_cons_ne (k, v) r "country" hk5, recGet_cons_ne (k, v) r "country_id" hk6]

/-- Witness for C5: a non-numeric raw value converts to a present NaN and a
bogus key is ignored. -/
theorem parseUrl_type_conversion_witness :
    (toSearchAPIParams [("geo_id", "abc")]).geo_id = some (parseIntTen "abc") ∧
    parseIntTen "abc" = JSNum.nan ∧
    toSearchAPIParams [("bogus", "1"), ("geo_id", "abc")] =
      toSearchAPIParams [("geo_id", "abc")] :=
  ⟨(parseUrl_type_conversion [("geo_id", "abc")] "abc" "bogus" "1").1 (by decide) (by decide),
   by decide,
   (parseUrl_type_conversion [("geo_id", "abc")] "abc" "bogus" "1").2.2.2 (by decide)⟩

/-! ### Claim C6 -/

/-- C6 counterexample: translating the known pair yields meta_code
"adult_services" (the configured value), not "escorts_massages" as the
claim asserts. -/
theorem translate_known_mapping_cex :
    mapToAPIParams { category := some "Escorts and Massages", location := some "London" } =
      Except.ok { geo_id := some (JSNum.num 7), cat_id := some (JSNum.num 88),
                  meta_code := some "adult_services" } ∧
    some ("adult_services" : String) ≠ some "escorts_massages" := by decide

/-- C6 (amended): translating category "Escorts and Massages" with location
"London" succeeds with the configured cat_id 88, meta_code
"adult_services", and geo_id 7. -/
theorem translate_known_mapping :
    mapToAPIParams { category := some "Escorts and Massages", location := some "London" } =
      Except.ok { geo_id := some (JSNum.num 7), cat_id := some (JSNum.num 88),
                  meta_code := some "adult_services" } := by decide

/-! ### Claim C7 -/

/-- C7: translating a UI request whose location is the empty string
succeeds with the explicit no-geographic-filter entry geo_id = 0, not a
lookup failure. -/
theorem translate_empty_location :
    mapToAPIParams { location := some "" } =
      Except.ok { geo_id := some (JSNum.num 0) } := by decide

/-! ### Claim C8 -/

/-- C8: the differences of a comparison are populated exactly when it did
not match; the entry for actual geo_id 7 against expected geo_id 15 reads
"geo_id: expected 15, got 7"; the comparison result embeds the full actual
and expected sets; and on a mismatch the validator throws the
parameter-mismatch error embedding that full comparison result, leaving
the state unchanged. -/
theorem validation_differences (a e : SearchAPIParams) :
    ((compareParams a e).differences ≠ none ↔ (compareParams a e).matched = false) ∧
    (compareParams { geo_id := some (JSNum.num 7) } { geo_id := some (JSNum.num 15) }).differences =
      some ["geo_id: expected 15, got 7"] ∧
    (compareParams a e).actualParams = a ∧
    (compareParams a e).expectedParams = e ∧
    (∀ st e2 url expApi, st.interceptedRequest = some url →
      mapToAPIParams e2 = Except.ok expApi →
      (compareParams (toSearchAPIParams (parseQueryParams url)) expApi).matched = false →
      validateInterceptedRequest st e2 =
        (Except.error (ValidationError.parameterMismatch
          (compareParams (toSearchAPIParams (parseQueryParams url)) expApi)), st)) := by
  refine ⟨?_, by decide, rfl, rfl, ?_⟩
  · rw [compareParams_eq]
    by_cases hd : diffList a e = []
    · have hm : (keyOk a e "cat_id" && keyOk a e "geo_id" && keyOk a e "meta_code") = true :=
        (matched_iff_diffList_nil a e).mpr hd
      simp [hd, hm]
    · have hm : ¬((keyOk a e "cat_id" && keyOk a e "geo_id" && keyOk a e "meta_code") = true) :=
        fun hmm => hd ((matched_iff_diffList_nil a e).mp hmm)
      simp [hd, hm]
  · intro st e2 url expApi hst hm2 hnm
    unfold validateInterceptedRequest
    simp only [hst, hm2, hnm]
    simp

/-- Witness for C8: the captured geo_id 15 against the London expectation
throws the parameter-mismatch error embedding the comparison result. -/
theorem validation_differences_witness :
    ((compareParams { geo_id := some (JSNum.num 15) } { geo_id := some (JSNum.num 7) }).differences ≠ none ↔
      (compareParams { geo_id := some (JSNum.num 15) } { geo_id := some (JSNum.num 7) }).matched = false) ∧
    validateInterceptedRequest mismatchState londonRequest =
      (Except.error (ValidationError.parameterMismatch
        (compareParams (toSearchAPIParams (parseQueryParams mismatchUrl))
          { geo_id := some (JSNum.num 7) })), mismatchState) :=
  ⟨(validation_differences { geo_id := some (JSNum.num 15) } { geo_id := some (JSNum.num 7) }).1,
   (validation_differences { geo_id := some (JSNum.num 15) } { geo_id := some (JSNum.num 7) }).2.2.2.2
     mismatchState londonRequest mismatchUrl { geo_id := some (JSNum.num 7) }
     (by decide) (by decide) (by decide)⟩

/-! ### Claim C9 -/

/-- C9: building a URL from the empty parameter set produces exactly the
three default query parameters summary=1, country=GB and country_id=GB and
nothing else; and the merge underlying every built URL overrides the
defaults field by field (caller-supplied values win, absent ones fall back
to the default, non-default fields pass through). -/
theorem buildUrl_default_merge :
    buildSearchAPIUrl {} =
      "https://search.vivastreet.co.uk/ajax/regions_tree.php?summary=1&country=GB&country_id=GB" ∧
    ∀ p : SearchAPIParams,
      (spreadMerge DEFAULT_API_PARAMS p).geo_id = p.geo_id ∧
      (spreadMerge DEFAULT_API_PARAMS p).cat_id = p.cat_id ∧
      (spreadMerge DEFAULT_API_PARAMS p).meta_code = p.meta_code ∧
      (spreadMerge DEFAULT_API_PARAMS p).summary = some (p.summary.getD (JSNum.num 1)) ∧
      (spreadMerge DEFAULT_API_PARAMS p).country = some (p.country.getD "GB") ∧
      (spreadMerge DEFAULT_API_PARAMS p).country_id = some (p.country_id.getD "GB") := by
  refine ⟨by decide, ?_⟩
  intro p
  refine ⟨?_, ?_, ?_, ?_, ?_, ?_⟩
  · cases hp : p.geo_id <;> simp [spreadMerge, DEFAULT_API_PARAMS, hp]
  · cases hp : p.cat_id <;> simp [spreadMerge, DEFAULT_API_PARAMS, hp]
  · cases hp : p.meta_code <;> simp [spreadMerge, DEFAULT_API_PARAMS, hp]
  · cases hp : p.summary <;> simp [spreadMerge, DEFAULT_API_PARAMS, hp]
  · cases hp : p.country <;> simp [spreadMerge, DEFAULT_API_PARAMS, hp]
  · cases hp : p.country_id <;> simp [spreadMerge, DEFAULT_API_PARAMS, hp]

/-! ### Claim C10 -/

/-- C10: a recognized query parameter whose raw value is the empty string
is treated as absent by the typed conversion (the presence checks are
truthiness checks), for every field; in particular a URL with `meta_code=`
and `country=` decodes to the empty parameter set. -/
theorem empty_raw_value_absent (r : List (String × String)) :
    (recGet r "geo_id" = some "" → (toSearchAPIParams r).geo_id = none) ∧
    (recGet r "cat_id" = some "" → (toSearchAPIParams r).cat_id = none) ∧
    (recGet r "meta_code" = some "" → (toSearchAPIParams r).meta_code = none) ∧
    (recGet r "summary" = some "" → (toSearchAPIParams r).summary = none) ∧
    (recGet r "country" = some "" → (toSearchAPIParams r).country = none) ∧
    (recGet r "country_id" = some "" → (toSearchAPIParams r).country_id = none) ∧
    toSearchAPIParams (parseQueryParams
      "https://search.vivastreet.co.uk/ajax/regions_tree.php?meta_code=&country=") = {} := by
  refine ⟨?_, ?_, ?_, ?_, ?_, ?_, by decide⟩ <;>
    (intro h; simp [toSearchAPIParams, intField, strField, h])

/-- Witness for C10 at a record holding empty raw values. -/
theorem empty_raw_value_absent_witness :
    recGet [("meta_code", ""), ("geo_id", "7")] "meta_code" = some "" ∧
    (toSearchAPIParams [("meta_code", ""), ("geo_id", "7")]).meta_code = none :=
  ⟨by decide, (empty_raw_value_absent [("meta_code", ""), ("geo_id", "7")]).2.2.1 (by decide)⟩

end Vivast
